import Mathlib

/-!
Verification of the SP chain executor and SQL normalizer
(src/core/db/sp_chain_executor.py, src/core/db/sql_normalizer.py).

Shallow embedding conventions:
- Python dynamic values are modelled by the inductive `Value` below.  Python
  floats are modelled as rationals (the repository only compares them with
  zero and truncates them to integers, which ℚ models exactly).
- Python dicts are modelled as association lists with unique keys, with
  `dictInsert` giving the Python update-in-place-or-append semantics.
- Fallible Python operations (the builtin `int(...)` conversion, the database
  call) return `Except String _`; an `error` models a raised exception.
- Character classes of the `re` patterns and of `str.strip` are modelled over
  ASCII (`Char.isDigit`, `Char.isWhitespace`), which covers every value the
  repository feeds them.
-/

namespace AutomationSP

/-- Dynamic Python value as used by the repository: None, bool, int, float
(modelled as ℚ), str, and the datetime.date / time / datetime objects. -/
inductive Value where
  | none
  | bool (b : Bool)
  | int (n : Int)
  | float (q : Rat)
  | str (s : String)
  | date (y m d : Nat)
  | time (h mi s : Nat)
  | datetime (y m d h mi s : Nat)
deriving DecidableEq

/-- Python truthiness, `bool(v)`. date/time/datetime objects are truthy. -/
def pyBool : Value → Bool
  | .none => false
  | .bool b => b
  | .int n => n != 0
  | .float q => q != 0
  | .str s => s != ""
  | .date _ _ _ => true
  | .time _ _ _ => true
  | .datetime _ _ _ _ _ _ => true

/-- Whitespace class used by `str.strip` and the `\s` regex class. -/
def isPySpace (c : Char) : Bool := c.isWhitespace

/-- Strip whitespace from both ends of a character list (Python `str.strip`). -/
def trimChars (cs : List Char) : List Char :=
  ((cs.dropWhile isPySpace).reverse.dropWhile isPySpace).reverse

/-- Python `s.strip()`. -/
def pyStrip (s : String) : String := String.mk (trimChars s.data)

/-- Digits of a decimal literal folded into a natural number. -/
def digitsToNat (cs : List Char) : Nat :=
  cs.foldl (fun n c => n * 10 + (c.toNat - ('0').toNat)) 0

/-- Python `int(s)` on a string: strip, optional sign, at least one digit,
nothing else; `Option.none` models the raised ValueError. -/
def parseIntStr (s : String) : Option Int :=
  match trimChars s.data with
  | '+' :: t => if t ≠ [] ∧ t.all Char.isDigit then some (digitsToNat t) else Option.none
  | '-' :: t => if t ≠ [] ∧ t.all Char.isDigit then some (-(digitsToNat t : Int)) else Option.none
  | t => if t ≠ [] ∧ t.all Char.isDigit then some (digitsToNat t) else Option.none

/-- Truncation toward zero, as Python `int(float)`. -/
def pyTruncRat (q : Rat) : Int := Int.tdiv q.num (q.den : Int)

/-- Mantissa and exponent of a Python float literal, after the optional sign.
Returns `Option.none` on a malformed literal (ValueError).  The special
literals inf and nan are also mapped to `Option.none`: the repository always
truncates the parsed float to an int right away, and `int(...)` of those
raises, landing in the very same fallback branch as a parse failure. -/
def parseFloatAux (cs : List Char) : Option Rat :=
  let ip := cs.takeWhile Char.isDigit
  let r1 := cs.dropWhile Char.isDigit
  let fp := match r1 with
    | '.' :: t => t.takeWhile Char.isDigit
    | _ => []
  let r2 := match r1 with
    | '.' :: t => t.dropWhile Char.isDigit
    | _ => r1
  if ip = [] ∧ fp = [] then Option.none
  else
    let mant : Rat := (digitsToNat (ip ++ fp) : Rat) / ((10 : Rat) ^ fp.length)
    match r2 with
    | [] => some mant
    | 'e' :: t =>
      (match t with
       | '+' :: u => if u ≠ [] ∧ u.all Char.isDigit then some (mant * (10 : Rat) ^ ((digitsToNat u : Int))) else Option.none
       | '-' :: u => if u ≠ [] ∧ u.all Char.isDigit then some (mant * (10 : Rat) ^ (-(digitsToNat u : Int))) else Option.none
       | u => if u ≠ [] ∧ u.all Char.isDigit then some (mant * (10 : Rat) ^ ((digitsToNat u : Int))) else Option.none)
    | 'E' :: t =>
      (match t with
       | '+' :: u => if u ≠ [] ∧ u.all Char.isDigit then some (mant * (10 : Rat) ^ ((digitsToNat u : Int))) else Option.none
       | '-' :: u => if u ≠ [] ∧ u.all Char.isDigit then some (mant * (10 : Rat) ^ (-(digitsToNat u : Int))) else Option.none
       | u => if u ≠ [] ∧ u.all Char.isDigit then some (mant * (10 : Rat) ^ ((digitsToNat u : Int))) else Option.none)
    | _ => Option.none

/-- Python `float(s)` on a string, used by the integer-family normalization. -/
def parseFloatStr (s : String) : Option Rat :=
  match trimChars s.data with
  | '+' :: t => parseFloatAux t
  | '-' :: t => (parseFloatAux t).map (fun q => -q)
  | t => parseFloatAux t

/-- Python `int(v)` on a dynamic value; `.error` models the raised
TypeError / ValueError. -/
def pyInt : Value → Except String Int
  | .bool b => .ok (if b then 1 else 0)
  | .int n => .ok n
  | .float q => .ok (pyTruncRat q)
  | .str s =>
    match parseIntStr s with
    | some n => .ok n
    | Option.none => .error ("invalid literal for int with base 10: " ++ s)
  | .none => .error "int argument must not be NoneType"
  | _ => .error "int argument must not be a date or time object"

/-- Zero-pad a natural number to the given width (strftime field padding). -/
def natPad (w n : Nat) : String :=
  let s := toString n
  String.mk (List.replicate (w - s.length) '0') ++ s

/-- strftime format Y-m-d. -/
def fmtDate (y m d : Nat) : String :=
  natPad 4 y ++ "-" ++ natPad 2 m ++ "-" ++ natPad 2 d

/-- strftime format H:M:S. -/
def fmtTime (h mi s : Nat) : String :=
  natPad 2 h ++ ":" ++ natPad 2 mi ++ ":" ++ natPad 2 s

/-- strftime format Y-m-d H:M:S. -/
def fmtDateTime (y m d h mi s : Nat) : String :=
  fmtDate y m d ++ " " ++ fmtTime h mi s

/-! ## The date-shape heuristic, sql_normalizer._looks_like_date

Each `re.match` pattern of the source is compiled by hand to a prefix
matcher over the character list.  `re.match` anchors at the start only, so
trailing characters beyond the pattern are irrelevant. -/

/-- ASCII letter class of the regex `[A-Za-z]`. -/
def isAsciiLetter (c : Char) : Bool :=
  ('A' ≤ c && c ≤ 'Z') || ('a' ≤ c && c ≤ 'z')

/-- Pattern YYYY-MM-DD as a prefix (regex digits four, dash, two, dash, two). -/
def isoDateShape : List Char → Bool
  | a :: b :: c :: d :: s1 :: e :: f :: s2 :: g :: h :: _ =>
    a.isDigit && b.isDigit && c.isDigit && d.isDigit && s1 == '-' &&
    e.isDigit && f.isDigit && s2 == '-' && g.isDigit && h.isDigit
  | _ => false

/-- Pattern HH:MM:SS as a prefix. -/
def hmsShape : List Char → Bool
  | a :: b :: c1 :: c :: d :: c2 :: e :: f :: _ =>
    a.isDigit && b.isDigit && c1 == ':' && c.isDigit && d.isDigit &&
    c2 == ':' && e.isDigit && f.isDigit
  | _ => false

/-- Pattern YYYY-MM-DD then one or more spaces then HH:MM:SS as a prefix. -/
def isoDateTimeShape : List Char → Bool
  | a :: b :: c :: d :: s1 :: e :: f :: s2 :: g :: h :: rest =>
    a.isDigit && b.isDigit && c.isDigit && d.isDigit && s1 == '-' &&
    e.isDigit && f.isDigit && s2 == '-' && g.isDigit && h.isDigit &&
    !(rest.takeWhile isPySpace).isEmpty && hmsShape (rest.dropWhile isPySpace)
  | _ => false

/-- Pattern of one or two digits then a slash, continuing with `k`.  The run
of leading digits must have length one or two (regex backtracking on a
bounded digit quantifier followed by a slash reduces to exactly this) and be
followed by the slash. -/
def slashThen (k : List Char → Bool) (cs : List Char) : Bool :=
  let r := (cs.takeWhile Char.isDigit).length
  (r == 1 || r == 2) &&
  (match cs.dropWhile Char.isDigit with
   | '/' :: t => k t
   | _ => false)

/-- Pattern D/D/DD as a prefix, with one-or-two-digit day and month fields
and a final field of at least two digits. -/
def slashDateShape (cs : List Char) : Bool :=
  slashThen (fun t1 => slashThen (fun t2 => 2 ≤ (t2.takeWhile Char.isDigit).length) t1) cs

/-- Three ASCII letters, then whitespace, then a one-or-two-digit field
followed by whitespace, continuing with `k` after that whitespace. -/
def monthNameHead (k : List Char → Bool) : List Char → Bool
  | a :: b :: c :: rest =>
    isAsciiLetter a && isAsciiLetter b && isAsciiLetter c &&
    !(rest.takeWhile isPySpace).isEmpty &&
    (let afterWs := rest.dropWhile isPySpace
     let r := (afterWs.takeWhile Char.isDigit).length
     (r == 1 || r == 2) &&
     (let afterDigits := afterWs.dropWhile Char.isDigit
      !(afterDigits.takeWhile isPySpace).isEmpty &&
      k (afterDigits.dropWhile isPySpace)))
  | _ => false

/-- Pattern Mon D YYYY as a prefix: the year field needs at least four
digits at that position. -/
def monthNameShape (cs : List Char) : Bool :=
  monthNameHead (fun t => 4 ≤ (t.takeWhile Char.isDigit).length) cs

/-- Pattern Mon D YYYY H:MM as a prefix: the year field is exactly four
digits (the following mandatory whitespace forbids a fifth), then the
hour-minute field. -/
def monthNameTimeShape (cs : List Char) : Bool :=
  monthNameHead (fun t =>
    (t.takeWhile Char.isDigit).length == 4 &&
    (let afterY := t.dropWhile Char.isDigit
     !(afterY.takeWhile isPySpace).isEmpty &&
     (let hm := afterY.dropWhile isPySpace
      let r := (hm.takeWhile Char.isDigit).length
      (r == 1 || r == 2) &&
      (match hm.dropWhile Char.isDigit with
       | ':' :: u => 2 ≤ (u.takeWhile Char.isDigit).length
       | _ => false)))) cs

/-- sql_normalizer._looks_like_date: strip, then try the five patterns. -/
def looksLikeDate (s : String) : Bool :=
  let v := (pyStrip s).data
  isoDateShape v || isoDateTimeShape v || slashDateShape v ||
  monthNameShape v || monthNameTimeShape v

/-! ## SQLNormalizer -/

/-- SQLNormalizer._normalize_date.  In Python `isinstance(False, int)` holds
and `False == 0`, so the boolean false is also sent to None by the
integer-zero branch. -/
def normalizeDateV : Value → Value
  | .date y m d => .str (fmtDate y m d)
  | .datetime y m d _ _ _ => .str (fmtDate y m d)
  | .int 0 => .none
  | .bool false => .none
  | v => v

/-- SQLNormalizer._normalize_datetime. -/
def normalizeDatetimeV : Value → Value
  | .datetime y m d h mi s => .str (fmtDateTime y m d h mi s)
  | .date y m d => .str (fmtDate y m d ++ " 00:00:00")
  | .int 0 => .none
  | .bool false => .none
  | v => v

/-- SQLNormalizer._normalize_time. -/
def normalizeTimeV : Value → Value
  | .time h mi s => .str (fmtTime h mi s)
  | .datetime _ _ _ h mi s => .str (fmtTime h mi s)
  | v => v

/-- The integer-family branch of SQLNormalizer.normalize (types INT, BIGINT,
SMALLINT, TINYINT). -/
def normalizeIntV (value : Value) : Value :=
  match value with
  | .str s =>
    let vs := pyStrip s
    if looksLikeDate vs then .str s
    else if vs = "" then .int 0
    else
      match parseFloatStr vs with
      | some q => .int (pyTruncRat q)
      | Option.none => .str s
  | .bool b => .int (if b then 1 else 0)
  | .float q => .int (pyTruncRat q)
  | v => v

/-- The BIT branch of SQLNormalizer.normalize. -/
def normalizeBitV (value : Value) : Value :=
  match value with
  | .str s =>
    if pyStrip s = "" then .int 0
    else
      match parseIntStr s with
      | some n => .int (if n != 0 then 1 else 0)
      | Option.none => .str s
  | .bool b => .int (if b then 1 else 0)
  | .int n => .int (if n != 0 then 1 else 0)
  | v => v

/-- The DECIMAL / NUMERIC / MONEY / SMALLMONEY branch of
SQLNormalizer.normalize. -/
def normalizeDecV (value : Value) : Value :=
  match value with
  | .str s => if pyStrip s = "" then .int 0 else .str s
  | v => v

/-- The type dispatch of SQLNormalizer.normalize once an explicit SQL type
is present.  The try/except of the source swallows every exception and
returns the original value; each branch of this embedding is total, with
raising sub-operations already folded into their fallbacks. -/
def normalizeTyped (t : String) (value : Value) : Value :=
  if t = "DATE" then normalizeDateV value
  else if t = "DATETIME" ∨ t = "DATETIME2" ∨ t = "SMALLDATETIME" ∨ t = "DATETIMEOFFSET" then
    normalizeDatetimeV value
  else if t = "TIME" then normalizeTimeV value
  else if t = "INT" ∨ t = "BIGINT" ∨ t = "SMALLINT" ∨ t = "TINYINT" then
    normalizeIntV value
  else if t = "BIT" then normalizeBitV value
  else if t = "DECIMAL" ∨ t = "NUMERIC" ∨ t = "MONEY" ∨ t = "SMALLMONEY" then
    normalizeDecV value
  else value

/-- SQLNormalizer.normalize: None short-circuits, a missing declared type
returns the value unchanged, otherwise dispatch on the declared type. -/
def normalize (_paramName : String) (value : Value) (sqlType : Option String) : Value :=
  if value = Value.none then Value.none
  else
    match sqlType with
    | Option.none => value
    | some t => normalizeTyped t value

/-! ## Python dicts as association lists

A Python dict is an association list with unique keys in insertion order.
`dictInsert` is a single keyed assignment: it overwrites the value in place
when the key is present and appends otherwise, exactly the Python
behaviour. -/

/-- Keyed assignment `d[k] = v` on a Python dict. -/
def dictInsert {α β : Type} [DecidableEq α] (d : List (α × β)) (k : α) (v : β) :
    List (α × β) :=
  match d with
  | [] => [(k, v)]
  | (k₀, v₀) :: t => if k₀ = k then (k, v) :: t else (k₀, v₀) :: dictInsert t k v

/-- Lookup `d.get(k)` on a Python dict. -/
def dictGet {α β : Type} [DecidableEq α] (d : List (α × β)) (k : α) : Option β :=
  match d with
  | [] => Option.none
  | (k₀, v₀) :: t => if k₀ = k then some v₀ else dictGet t k

/-- Python `d.update(e)`: every binding of `e`, in order, assigned into `d`. -/
def dictUpdate {α β : Type} [DecidableEq α] (d e : List (α × β)) : List (α × β) :=
  e.foldl (fun acc kv => dictInsert acc kv.1 kv.2) d

/-- The key sequence of a dict. -/
def dictKeys {α β : Type} (d : List (α × β)) : List α := d.map Prod.fst

/-! ## SP chain executor, sp_chain_executor.py -/

/-- Parameter set of one SP call: dict from parameter name to value. -/
def Params : Type := List (String × Value)

instance : DecidableEq Params := by unfold Params; infer_instance

/-- Result of one SP execution as consumed by the chain executor: the
`rows` entry of the dict returned by run_stored_procedure.  `Option.none`
models an absent or None rows entry, which the source treats like an empty
row list. -/
structure SPResult where
  rows : Option (List (List Value))
deriving DecidableEq

/-- One entry of the chain_config list.  `step` is the optional explicit
"step" field, `outputMapping` is present exactly when the config dict has an
"output_mapping" key (the source tests key membership before reading it). -/
structure StepConfig where
  step : Option Int
  spName : String
  parameters : Params
  inputMapping : List (String × String)
  outputMapping : Option (List (String × String))
deriving DecidableEq

/-- Mutable state of an SPChainExecutor instance: execution_results (keyed
by the step number, since the source key is the string step_N and N ↦
step_N is injective), chain_data, base_parameters. -/
structure ExecState where
  executionResults : List (Int × SPResult)
  chainData : List (String × Value)
  baseParameters : Params
deriving DecidableEq

/-- The executor state right after __init__: all three dicts empty. -/
def initState : ExecState := ⟨[], [], []⟩

/-- The value returned by execute_chain.  The three constructors are the
three return dicts of the source: the success dict, the step-failure dict
(which carries failed_step), and the exception dict (which does not). -/
inductive ChainOutcome where
  | ok (results : List (Int × SPResult)) (chainData : List (String × Value))
  | stepFailed (error : Value) (failedStep : Int) (partialResults : List (Int × SPResult))
      (chainData : List (String × Value))
  | exnFailed (error : String) (partialResults : List (Int × SPResult))
      (chainData : List (String × Value))
deriving DecidableEq

/-- The chain_data entry of any of the three outcome dicts. -/
def ChainOutcome.chainDataOf : ChainOutcome → List (String × Value)
  | .ok _ cd => cd
  | .stepFailed _ _ _ cd => cd
  | .exnFailed _ _ cd => cd

/-- The failed_step entry of an outcome dict, when the dict has one. -/
def ChainOutcome.failedStepOf : ChainOutcome → Option Int
  | .stepFailed _ n _ _ => some n
  | _ => Option.none

/-- Everything observable about one run: the returned outcome, the sequence
of SP invocations actually issued (name and bound parameters, in order),
and the final executor state. -/
structure RunResult where
  outcome : ChainOutcome
  trace : List (String × Params)
  state : ExecState
deriving DecidableEq

/-- The database, abstracted: an SP invocation returns rows or raises. -/
def Oracle : Type := String → Params → Except String SPResult

/-- SPChainExecutor._apply_input_mapping: for each pair, overwrite the
parameter from chain_data when the chain variable is present, otherwise
leave it (a warning only). -/
def applyInputMapping (chainData : List (String × Value)) (params : Params)
    (inputMapping : List (String × String)) : Params :=
  inputMapping.foldl
    (fun mp pc =>
      match dictGet chainData pc.2 with
      | some nv => dictInsert mp pc.1 nv
      | Option.none => mp)
    params

/-- The inheritance phase of SPChainExecutor._build_parameters_with_inheritance,
before input mapping: step 1 uses its own parameters (a shallow copy); any
other step starts from a deep copy of base_parameters and applies the
step-specific overrides with dict update.  Copies are identities in this
purely functional embedding. -/
def inheritedParams (base : Params) (cfg : StepConfig) (stepNum : Int) : Params :=
  if stepNum = 1 then cfg.parameters
  else dictUpdate base cfg.parameters

/-- SPChainExecutor._build_parameters_with_inheritance: inheritance phase,
then input mapping. -/
def buildParametersWithInheritance (st : ExecState) (cfg : StepConfig) (stepNum : Int) :
    Params :=
  applyInputMapping st.chainData (inheritedParams st.baseParameters cfg stepNum)
    cfg.inputMapping

/-- The numeric-cell test of SPChainExecutor._extract_outputs: int or float,
not bool, strictly positive. -/
def isPositiveNumeric : Value → Bool
  | .int n => 0 < n
  | .float q => 0 < q
  | _ => false

/-- SPChainExecutor._extract_outputs.  Scan the first result row from the
last column to the first; at the first strictly positive numeric cell,
assign it to the chain variable of the FIRST entry of the output mapping and
return (the return statement of the source sits inside the loop over the
mapping, so later mapping entries are never written).  With no positive
numeric cell, or no rows, chain_data is unchanged. -/
def extractOutputs (result : SPResult) (outputMapping : List (String × String))
    (chainData : List (String × Value)) : List (String × Value) :=
  match outputMapping with
  | [] => chainData
  | (_, chainVar) :: _ =>
    match result.rows with
    | Option.none => chainData
    | some [] => chainData
    | some (firstRow :: _) =>
      match firstRow.reverse.find? isPositiveNumeric with
      | some v => dictInsert chainData chainVar v
      | Option.none => chainData

/-- SPChainExecutor._check_step_status.  No rows, or a first row of fewer
than two columns, is a failure with a synthesized message.  Otherwise the
success flag is the Python expression bool(code) and int(code) != 0, whose
int conversion can raise: `.error` propagates that exception. -/
def checkStepStatus (result : SPResult) : Except String (Bool × Value) :=
  match result.rows with
  | Option.none => .ok (false, .str "No result rows returned from SP")
  | some [] => .ok (false, .str "No result rows returned from SP")
  | some (firstRow :: _) =>
    match firstRow with
    | c0 :: c1 :: _ =>
      if pyBool c0 then
        match pyInt c0 with
        | .ok n => .ok (n != 0, c1)
        | .error e => .error e
      else .ok (false, c1)
    | _ => .ok (false, .str "Result row has insufficient columns")

/-- State of the executor after the post-status-check bookkeeping of one
successful step: the result is already recorded in execution_results (the
source records it before the status check), base_parameters is snapshotted
when the step number is one, and output extraction runs when the step
declares an output mapping. -/
def postSuccessState (st : ExecState) (cfg : StepConfig) (stepNum : Int)
    (params : Params) (result : SPResult) : ExecState :=
  let st1 : ExecState :=
    { st with executionResults := dictInsert st.executionResults stepNum result }
  let st2 : ExecState :=
    if stepNum = 1 then { st1 with baseParameters := params } else st1
  match cfg.outputMapping with
  | some m => { st2 with chainData := extractOutputs result m st2.chainData }
  | Option.none => st2

/-- The loop body of SPChainExecutor.execute_chain, from the list of still
pending steps, the current enumerate index, the current state, and the
invocations issued so far.  Per step: compute the step number (the explicit
"step" field, defaulting to the one-based position), build the parameters,
invoke the SP (an exception here returns the exception dict with the
current partial state), record the result in execution_results, check the
status row (an exception out of the int conversion also returns the
exception dict, with the result already recorded), on a failed status
return the step-failure dict, otherwise do the post-success bookkeeping and
continue. -/
def executeChainFrom (oracle : Oracle) :
    List StepConfig → Nat → ExecState → List (String × Params) → RunResult
  | [], _, st, tr => ⟨.ok st.executionResults st.chainData, tr, st⟩
  | cfg :: rest, idx, st, tr =>
    let stepNum : Int := cfg.step.getD ((idx : Int) + 1)
    let params := buildParametersWithInheritance st cfg stepNum
    let tr1 := tr ++ [(cfg.spName, params)]
    match oracle cfg.spName params with
    | .error e => ⟨.exnFailed e st.executionResults st.chainData, tr1, st⟩
    | .ok result =>
      match checkStepStatus result with
      | .error e =>
        ⟨.exnFailed e (dictInsert st.executionResults stepNum result) st.chainData, tr1,
         { st with executionResults := dictInsert st.executionResults stepNum result }⟩
      | .ok (false, msg) =>
        ⟨.stepFailed msg stepNum (dictInsert st.executionResults stepNum result) st.chainData,
         tr1,
         { st with executionResults := dictInsert st.executionResults stepNum result }⟩
      | .ok (true, _) =>
        executeChainFrom oracle rest (idx + 1)
          (postSuccessState st cfg stepNum params result) tr1

/-- SPChainExecutor.execute_chain on a freshly constructed executor. -/
def executeChain (oracle : Oracle) (chainConfig : List StepConfig) : RunResult :=
  executeChainFrom oracle chainConfig 0 initState []

instance {ε α : Type} [DecidableEq ε] [DecidableEq α] : DecidableEq (Except ε α) :=
  fun a b =>
    match a, b with
    | .ok x, .ok y =>
      if h : x = y then isTrue (by rw [h]) else isFalse (fun hc => h (Except.ok.inj hc))
    | .error x, .error y =>
      if h : x = y then isTrue (by rw [h]) else isFalse (fun hc => h (Except.error.inj hc))
    | .ok _, .error _ => isFalse (fun hc => Except.noConfusion hc)
    | .error _, .ok _ => isFalse (fun hc => Except.noConfusion hc)

/-- The chain data produced by a successful first step on a fresh executor:
empty unless the step declares an output mapping, in which case output
extraction runs on the empty pool. -/
def chainDataAfter (om : Option (List (String × String))) (r : SPResult) :
    List (String × Value) :=
  match om with
  | some m => extractOutputs r m []
  | Option.none => []

/-! ## Concrete fixtures shared by witnesses and counterexamples -/

/-- Status row of a successful insert-like step: (1, fine, 5). -/
def resOk5 : SPResult := ⟨some [[.int 1, .str "fine", .int 5]]⟩

/-- Status row of a failing step: (0, boom). -/
def resBoom : SPResult := ⟨some [[.int 0, .str "boom"]]⟩

/-- Result with first row (1, OK, 42). -/
def resOk42 : SPResult := ⟨some [[.int 1, .str "OK", .int 42]]⟩

/-- Result with first row (1, OK, 0). -/
def resOk0 : SPResult := ⟨some [[.int 1, .str "OK", .int 0]]⟩

/-- First chain step: parameters {A: 1}, output mapping {p: new_id}. -/
def cfgA : StepConfig := ⟨Option.none, "sp_a", [("A", .int 1)], [], some [("p", "new_id")]⟩

/-- Second chain step: parameter override {B: 2}. -/
def cfgB : StepConfig := ⟨Option.none, "sp_b", [("B", .int 2)], [], Option.none⟩

/-- Third chain step, never reached in the failing runs. -/
def cfgC : StepConfig := ⟨Option.none, "sp_c", [], [], Option.none⟩

/-- Step config carrying the explicit step number 2. -/
def cfgN2 : StepConfig := ⟨some 2, "sp_a", [("A", .int 1)], [], Option.none⟩

/-- Step config carrying the explicit step number 3. -/
def cfgN3 : StepConfig := ⟨some 3, "sp_c", [], [], Option.none⟩

/-- Base parameters used by the C4 witness. -/
def baseW : Params := [("A", .int 1), ("B", .int 2)]

/-- Step config used by the C4 witness: overrides B, adds C. -/
def cfgW : StepConfig := ⟨Option.none, "sp_w", [("B", .int 9), ("C", .int 3)], [], Option.none⟩

/-- Oracle under which sp_b fails its status row and every other SP
succeeds. -/
def oracleAB : Oracle := fun name _ =>
  if name = "sp_b" then .ok resBoom else .ok resOk5

/-- Oracle that raises on every invocation. -/
def oracleRaise : Oracle := fun _ _ => .error "boom"

/-- Oracle that succeeds on every invocation. -/
def oracleOk : Oracle := fun _ _ => .ok resOk5

/-! ## Unfolding lemmas for the execution loop -/

theorem executeChainFrom_nil (oracle : Oracle) (idx : Nat) (st : ExecState)
    (tr : List (String × Params)) :
    executeChainFrom oracle [] idx st tr = ⟨.ok st.executionResults st.chainData, tr, st⟩ :=
  rfl

/-- An exception out of the SP invocation at the current step ends the run
with the exception dict: current partial results and chain data, no
failed_step, the failing invocation still in the trace, the state without
the failed step recorded. -/
theorem executeChainFrom_cons_error (oracle : Oracle) (cfg : StepConfig)
    (rest : List StepConfig) (idx : Nat) (st : ExecState) (tr : List (String × Params))
    (e : String)
    (ho : oracle cfg.spName
        (buildParametersWithInheritance st cfg (cfg.step.getD ((idx : Int) + 1))) = .error e) :
    executeChainFrom oracle (cfg :: rest) idx st tr =
      ⟨.exnFailed e st.executionResults st.chainData,
       tr ++ [(cfg.spName,
         buildParametersWithInheritance st cfg (cfg.step.getD ((idx : Int) + 1)))],
       st⟩ := by
  simp only [executeChainFrom, ho]

/-- An exception out of the status check (the int conversion of a
malformed status cell) ends the run with the exception dict, the result of
the current step already recorded. -/
theorem executeChainFrom_cons_checkError (oracle : Oracle) (cfg : StepConfig)
    (rest : List StepConfig) (idx : Nat) (st : ExecState) (tr : List (String × Params))
    (r : SPResult) (e : String)
    (ho : oracle cfg.spName
        (buildParametersWithInheritance st cfg (cfg.step.getD ((idx : Int) + 1))) = .ok r)
    (hs : checkStepStatus r = .error e) :
    executeChainFrom oracle (cfg :: rest) idx st tr =
      ⟨.exnFailed e
         (dictInsert st.executionResults (cfg.step.getD ((idx : Int) + 1)) r) st.chainData,
       tr ++ [(cfg.spName,
         buildParametersWithInheritance st cfg (cfg.step.getD ((idx : Int) + 1)))],
       { st with executionResults :=
           dictInsert st.executionResults (cfg.step.getD ((idx : Int) + 1)) r }⟩ := by
  simp only [executeChainFrom, ho, hs]

/-- A failed status check at the current step ends the run with the
step-failure dict: the step number, the message, the partial results with
the failed step already recorded, and the chain data so far. -/
theorem executeChainFrom_cons_failed (oracle : Oracle) (cfg : StepConfig)
    (rest : List StepConfig) (idx : Nat) (st : ExecState) (tr : List (String × Params))
    (r : SPResult) (msg : Value)
    (ho : oracle cfg.spName
        (buildParametersWithInheritance st cfg (cfg.step.getD ((idx : Int) + 1))) = .ok r)
    (hs : checkStepStatus r = .ok (false, msg)) :
    executeChainFrom oracle (cfg :: rest) idx st tr =
      ⟨.stepFailed msg (cfg.step.getD ((idx : Int) + 1))
         (dictInsert st.executionResults (cfg.step.getD ((idx : Int) + 1)) r) st.chainData,
       tr ++ [(cfg.spName,
         buildParametersWithInheritance st cfg (cfg.step.getD ((idx : Int) + 1)))],
       { st with executionResults :=
           dictInsert st.executionResults (cfg.step.getD ((idx : Int) + 1)) r }⟩ := by
  simp only [executeChainFrom, ho, hs]

/-- A successful status check advances to the remaining steps from the
post-success state, with the invocation appended to the trace. -/
theorem executeChainFrom_cons_success (oracle : Oracle) (cfg : StepConfig)
    (rest : List StepConfig) (idx : Nat) (st : ExecState) (tr : List (String × Params))
    (r : SPResult) (msg : Value)
    (ho : oracle cfg.spName
        (buildParametersWithInheritance st cfg (cfg.step.getD ((idx : Int) + 1))) = .ok r)
    (hs : checkStepStatus r = .ok (true, msg)) :
    executeChainFrom oracle (cfg :: rest) idx st tr =
      executeChainFrom oracle rest (idx + 1)
        (postSuccessState st cfg (cfg.step.getD ((idx : Int) + 1))
          (buildParametersWithInheritance st cfg (cfg.step.getD ((idx : Int) + 1))) r)
        (tr ++ [(cfg.spName,
          buildParametersWithInheritance st cfg (cfg.step.getD ((idx : Int) + 1)))]) := by
  simp only [executeChainFrom, ho, hs]

/-! ## Dict lemmas -/

theorem dictGet_dictInsert_self {α β : Type} [DecidableEq α] (d : List (α × β))
    (k : α) (v : β) : dictGet (dictInsert d k v) k = some v := by
  induction d with
  | nil => simp [dictInsert, dictGet]
  | cons kv t ih =>
    obtain ⟨k₀, v₀⟩ := kv
    by_cases h : k₀ = k
    · subst h; simp [dictInsert, dictGet]
    · simp [dictInsert, dictGet, h, ih]

theorem dictGet_dictInsert_ne {α β : Type} [DecidableEq α] (d : List (α × β))
    (k k' : α) (v : β) (h : k' ≠ k) : dictGet (dictInsert d k' v) k = dictGet d k := by
  induction d with
  | nil => simp [dictInsert, dictGet, h]
  | cons kv t ih =>
    obtain ⟨k₀, v₀⟩ := kv
    by_cases h0 : k₀ = k'
    · subst h0; simp [dictInsert, dictGet, h]
    · simp [dictInsert, dictGet, h0, ih]

theorem dictGet_eq_none_of_not_mem {α β : Type} [DecidableEq α] (d : List (α × β))
    (k : α) (h : k ∉ dictKeys d) : dictGet d k = Option.none := by
  induction d with
  | nil => rfl
  | cons kv t ih =>
    obtain ⟨k₀, v₀⟩ := kv
    simp only [dictKeys, List.map_cons, List.mem_cons, not_or] at h
    have hne : k₀ ≠ k := fun hc => h.1 hc.symm
    simpa [dictGet, hne] using ih (by simpa [dictKeys] using h.2)

/-- Python dict update, observed through lookup: a key is read from the
updating dict first, falling back to the updated dict. -/
theorem dictGet_dictUpdate {α β : Type} [DecidableEq α] (e d : List (α × β))
    (he : (dictKeys e).Nodup) (k : α) :
    dictGet (dictUpdate d e) k = (dictGet e k).orElse (fun _ => dictGet d k) := by
  induction e generalizing d with
  | nil => simp [dictUpdate, dictGet]
  | cons kv t ih =>
    obtain ⟨k₀, v₀⟩ := kv
    simp only [dictKeys, List.map_cons, List.nodup_cons] at he
    have hupd : dictUpdate d ((k₀, v₀) :: t) = dictUpdate (dictInsert d k₀ v₀) t := rfl
    by_cases h : k₀ = k
    · subst h
      have htk : dictGet t k₀ = Option.none :=
        dictGet_eq_none_of_not_mem t k₀ (by simpa [dictKeys] using he.1)
      rw [hupd, ih (dictInsert d k₀ v₀) (by simpa [dictKeys] using he.2), htk]
      simp [dictGet, dictGet_dictInsert_self]
    · rw [hupd, ih (dictInsert d k₀ v₀) (by simpa [dictKeys] using he.2)]
      simp only [dictGet_dictInsert_ne d k k₀ v₀ h]
      simp [dictGet, h]

theorem mem_dictKeys_dictInsert {α β : Type} [DecidableEq α] (d : List (α × β))
    (k k' : α) (v : β) (h : k ∈ dictKeys d) : k ∈ dictKeys (dictInsert d k' v) := by
  induction d with
  | nil => simp [dictKeys] at h
  | cons kv t ih =>
    obtain ⟨k₀, v₀⟩ := kv
    simp only [dictKeys, List.map_cons, List.mem_cons] at h
    by_cases h0 : k₀ = k'
    · subst h0
      rcases h with h | h
      · subst h; simp [dictInsert, dictKeys]
      · simp [dictInsert, dictKeys, h]
    · rcases h with h | h
      · subst h; simp [dictInsert, dictKeys, h0]
      · simp only [dictInsert, if_neg h0, dictKeys, List.map_cons, List.mem_cons]
        exact Or.inr (ih h)

/-- Output extraction never removes a chain_data key. -/
theorem mem_dictKeys_extractOutputs (r : SPResult) (m : List (String × String))
    (cd : List (String × Value)) (k : String) (h : k ∈ dictKeys cd) :
    k ∈ dictKeys (extractOutputs r m cd) := by
  unfold extractOutputs
  rcases m with _ | ⟨⟨pn, cv⟩, mrest⟩
  · exact h
  · rcases r with ⟨_ | ⟨_ | ⟨row, rows⟩⟩⟩
    · exact h
    · exact h
    · rcases hf : row.reverse.find? isPositiveNumeric with _ | v
      · simpa [hf] using h
      · simpa [hf] using mem_dictKeys_dictInsert cd k cv v h

/-! ## Idempotence of strip, and the date heuristic on stripped strings -/

theorem dropWhile_head_false {α : Type} (p : α → Bool) :
    ∀ (l : List α) (x : α) (xs : List α), l.dropWhile p = x :: xs → p x = false := by
  intro l
  induction l with
  | nil => intro x xs h; simp [List.dropWhile] at h
  | cons a t ih =>
    intro x xs h
    cases hp : p a
    · rw [List.dropWhile_cons, if_neg (by simp [hp])] at h
      obtain ⟨rfl, -⟩ := List.cons.inj h
      exact hp
    · rw [List.dropWhile_cons, if_pos hp] at h
      exact ih x xs h

theorem trimChars_eq_rdropWhile (cs : List Char) :
    trimChars cs = List.rdropWhile isPySpace (cs.dropWhile isPySpace) := rfl

theorem dropWhile_trimChars (cs : List Char) :
    (trimChars cs).dropWhile isPySpace = trimChars cs := by
  rcases hv : trimChars cs with _ | ⟨x, xs⟩
  · rfl
  · have hpre : (x :: xs) <+: cs.dropWhile isPySpace := by
      rw [← hv, trimChars_eq_rdropWhile]
      exact List.rdropWhile_prefix isPySpace (cs.dropWhile isPySpace)
    obtain ⟨t, ht⟩ := hpre
    have hx : isPySpace x = false :=
      dropWhile_head_false isPySpace cs x (xs ++ t) (by rw [← ht]; rfl)
    rw [List.dropWhile_cons, if_neg (by simp [hx])]

theorem trimChars_idem (cs : List Char) : trimChars (trimChars cs) = trimChars cs := by
  have h1 : trimChars (trimChars cs) =
      List.rdropWhile isPySpace ((trimChars cs).dropWhile isPySpace) := rfl
  rw [h1, dropWhile_trimChars, trimChars_eq_rdropWhile]
  exact List.rdropWhile_idempotent isPySpace (cs.dropWhile isPySpace)

theorem pyStrip_idem (s : String) : pyStrip (pyStrip s) = pyStrip s :=
  congrArg String.mk (trimChars_idem s.data)

theorem looksLikeDate_pyStrip (s : String) :
    looksLikeDate (pyStrip s) = looksLikeDate s := by
  unfold looksLikeDate
  rw [pyStrip_idem]

/-! ## Claims about the normalizer -/

/-- Claim C9: with no declared SQL type, normalize is the identity: it
returns the value unchanged, for every parameter name and every value
(including None, which the None short-circuit also returns unchanged). -/
theorem normalize_no_declared_type_identity (name : String) (v : Value) :
    normalize name v Option.none = v := by
  unfold normalize
  by_cases h : v = Value.none
  · simp [h]
  · simp [h]

/-- Claim C8: a string matching the date-shape heuristic, normalized under
any integer-family declared type, is returned unchanged; the embedding is
total, so no exception escapes, and the result does not depend on the
numeric parse of the string. -/
theorem int_family_preserves_date_shaped_string (name s t : String)
    (ht : t = "INT" ∨ t = "BIGINT" ∨ t = "SMALLINT" ∨ t = "TINYINT")
    (hd : looksLikeDate s = true) :
    normalize name (.str s) (some t) = .str s := by
  have hdd : looksLikeDate (pyStrip s) = true := by
    rw [looksLikeDate_pyStrip]; exact hd
  have hbody : normalizeIntV (.str s) = .str s := by
    unfold normalizeIntV
    simp [hdd]
  have hnn : (Value.str s) ≠ Value.none := by simp
  rcases ht with h | h | h | h <;> subst h <;>
    simpa [normalize, normalizeTyped, hnn] using hbody

/-- Witness for C8 at the concrete example of the spec. -/
theorem int_family_preserves_date_shaped_string_witness :
    looksLikeDate "2023-05-01" = true ∧
    normalize "dtmStart" (.str "2023-05-01") (some "INT") = .str "2023-05-01" :=
  ⟨rfl, int_family_preserves_date_shaped_string "dtmStart" "2023-05-01" "INT"
    (Or.inl rfl) rfl⟩

/-! ## Claims about the status check -/

/-- Claim C5: on a first row of at least two columns, the step status check
succeeds exactly when column zero is non-null, truthy, and converts to a
nonzero integer; an absent or empty row list, and a first row of fewer than
two columns, fail with the synthesized messages; and the two concrete
status rows of the spec behave as stated. -/
theorem checkStepStatus_characterization :
    (∀ (v0 v1 : Value) (t : List Value) (rest : List (List Value)),
      (checkStepStatus ⟨some ((v0 :: v1 :: t) :: rest)⟩ = .ok (true, v1) ↔
        (v0 ≠ Value.none ∧ pyBool v0 = true ∧ ∃ n, pyInt v0 = .ok n ∧ n ≠ 0))) ∧
    checkStepStatus ⟨Option.none⟩ = .ok (false, .str "No result rows returned from SP") ∧
    checkStepStatus ⟨some []⟩ = .ok (false, .str "No result rows returned from SP") ∧
    (∀ rest, checkStepStatus ⟨some ([] :: rest)⟩ =
      .ok (false, .str "Result row has insufficient columns")) ∧
    (∀ (v : Value) rest, checkStepStatus ⟨some ([v] :: rest)⟩ =
      .ok (false, .str "Result row has insufficient columns")) ∧
    checkStepStatus ⟨some [[.int 0, .str "duplicate name"]]⟩ =
      .ok (false, .str "duplicate name") ∧
    checkStepStatus ⟨some [[.int 1, .str "created", .int 7]]⟩ =
      .ok (true, .str "created") := by
  refine ⟨?_, rfl, rfl, fun rest => rfl, fun v rest => rfl, rfl, rfl⟩
  intro v0 v1 t rest
  constructor
  · intro h
    unfold checkStepStatus at h
    cases hb : pyBool v0 with
    | false => simp [hb] at h
    | true =>
      have hnn : v0 ≠ Value.none := by
        intro hc; subst hc; simp [pyBool] at hb
      cases hi : pyInt v0 with
      | error e => simp [hb, hi] at h
      | ok n =>
        simp only [hb, if_true, hi] at h
        refine ⟨hnn, rfl, n, rfl, ?_⟩
        have h2 := congrArg Prod.fst (Except.ok.inj h)
        simpa using h2
  · rintro ⟨hnn, hb, n, hi, hn⟩
    unfold checkStepStatus
    simp [hb, hi, hn]

/-! ## Claims about output extraction -/

/-- Counterexample to claim C1 as stated: for first result row (1, OK, 0)
the claim predicts that nothing is extracted, but the backward scan walks
past the zero and the non-numeric message down to column zero, whose status
value 1 is strictly positive, and stores 1 under the mapping target. -/
theorem extraction_zero_row_counterexample :
    extractOutputs resOk0 [("p", "new_id")] [] = [("new_id", Value.int 1)] ∧
    extractOutputs resOk0 [("p", "new_id")] [] ≠ [] :=
  ⟨rfl, by decide⟩

/-- Claim C1 amended: for first result row (1, OK, 42) the value 42 is
stored under the mapping target; for first result row (1, OK, 0) the scan
does skip the zero, but then reaches the status column and stores its value
1 under the mapping target. -/
theorem extraction_spec_examples :
    ∀ (pn cv : String) (cd : List (String × Value)),
      extractOutputs resOk42 [(pn, cv)] cd = dictInsert cd cv (.int 42) ∧
      extractOutputs resOk0 [(pn, cv)] cd = dictInsert cd cv (.int 1) :=
  fun _ _ _ => ⟨rfl, rfl⟩

/-- Counterexample to claim C2 as stated: with the two-entry output mapping
{a: k1, b: k2} and a found value 42, only k1 receives the value; k2 is
absent from the resulting ChainData, against the claim that every key
receives it. -/
theorem extraction_multi_key_counterexample :
    extractOutputs resOk42 [("a", "k1"), ("b", "k2")] [] = [("k1", Value.int 42)] ∧
    dictGet (extractOutputs resOk42 [("a", "k1"), ("b", "k2")] []) "k2" = Option.none :=
  ⟨rfl, rfl⟩

/-- Claim C2 amended: when the backward scan of the first result row finds
a strictly positive numeric value, that value is written into ChainData
under the key named by the FIRST entry of the output mapping only; the
return statement inside the loop of the source prevents any later entry
from being written, as the conclusion is independent of the mapping tail. -/
theorem extraction_writes_first_mapping_key (r : SPResult) (row : List Value)
    (rows : List (List Value)) (hr : r.rows = some (row :: rows)) (v : Value)
    (hv : row.reverse.find? isPositiveNumeric = some v)
    (pn cv : String) (mrest : List (String × String)) (cd : List (String × Value)) :
    extractOutputs r ((pn, cv) :: mrest) cd = dictInsert cd cv v := by
  rcases r with ⟨rows0⟩
  simp only at hr
  subst hr
  unfold extractOutputs
  simp [hv]

/-- Witness for the amended C2 at a concrete input. -/
theorem extraction_writes_first_mapping_key_witness :
    resOk42.rows = some [[Value.int 1, Value.str "OK", Value.int 42]] ∧
    [Value.int 1, Value.str "OK", Value.int 42].reverse.find? isPositiveNumeric =
      some (Value.int 42) ∧
    extractOutputs resOk42 [("a", "k1"), ("b", "k2")] [] = dictInsert [] "k1" (Value.int 42) :=
  ⟨rfl, rfl,
   extraction_writes_first_mapping_key resOk42 [Value.int 1, Value.str "OK", Value.int 42]
     [] rfl (Value.int 42) rfl "a" "k1" [("b", "k2")] []⟩

/-! ## Claims about chain execution -/

theorem postSuccessState_chainData (st : ExecState) (cfg : StepConfig) (stepNum : Int)
    (params : Params) (r : SPResult) :
    (postSuccessState st cfg stepNum params r).chainData =
      match cfg.outputMapping with
      | some m => extractOutputs r m st.chainData
      | Option.none => st.chainData := by
  unfold postSuccessState
  rcases houtm : cfg.outputMapping with _ | m <;> split <;> simp [houtm]

theorem postSuccessState_baseParameters_of_ne_one (st : ExecState) (cfg : StepConfig)
    (stepNum : Int) (params : Params) (r : SPResult) (h : stepNum ≠ 1) :
    (postSuccessState st cfg stepNum params r).baseParameters = st.baseParameters := by
  unfold postSuccessState
  rcases houtm : cfg.outputMapping with _ | m <;> simp [houtm, h]

/-- Claim C3: in a three-step chain whose first step succeeds and whose
second step fails its status check, the run stops at step 2: the returned
dict has success false, error equal to the failing message, failed_step 2,
partial results holding exactly steps 1 and 2 (the failed step recorded),
and chain data as accumulated; the trace holds exactly the two invocations
issued, and nothing of step 3 is consulted (the conclusion does not depend
on its components). -/
theorem chain_aborts_on_failed_step (oracle : Oracle)
    (sp1 sp2 sp3 : String) (p1 p2 p3 : Params)
    (im1 im2 im3 : List (String × String))
    (om1 om2 om3 : Option (List (String × String)))
    (r1 r2 : SPResult) (m1 m2 : Value)
    (ho1 : oracle sp1 (applyInputMapping [] p1 im1) = .ok r1)
    (hs1 : checkStepStatus r1 = .ok (true, m1))
    (ho2 : oracle sp2 (buildParametersWithInheritance
        ⟨[(1, r1)], chainDataAfter om1 r1, applyInputMapping [] p1 im1⟩
        ⟨Option.none, sp2, p2, im2, om2⟩ 2) = .ok r2)
    (hs2 : checkStepStatus r2 = .ok (false, m2)) :
    executeChain oracle
        [⟨Option.none, sp1, p1, im1, om1⟩, ⟨Option.none, sp2, p2, im2, om2⟩,
         ⟨Option.none, sp3, p3, im3, om3⟩] =
      ⟨.stepFailed m2 2 [(1, r1), (2, r2)] (chainDataAfter om1 r1),
       [(sp1, applyInputMapping [] p1 im1),
        (sp2, buildParametersWithInheritance
          ⟨[(1, r1)], chainDataAfter om1 r1, applyInputMapping [] p1 im1⟩
          ⟨Option.none, sp2, p2, im2, om2⟩ 2)],
       ⟨[(1, r1), (2, r2)], chainDataAfter om1 r1, applyInputMapping [] p1 im1⟩⟩ := by
  unfold executeChain
  rw [executeChainFrom_cons_success oracle _ _ 0 initState [] r1 m1 (by exact ho1) hs1]
  rcases om1 with _ | m1map
  · rw [executeChainFrom_cons_failed oracle _ _ 1 _ _ r2 m2 (by exact ho2) hs2]
    rfl
  · rw [executeChainFrom_cons_failed oracle _ _ 1 _ _ r2 m2 (by exact ho2) hs2]
    rfl

/-- Witness for C3: the concrete three-step chain of the fixtures, whose
second step fails. -/
theorem chain_aborts_on_failed_step_witness :
    executeChain oracleAB [cfgA, cfgB, cfgC] =
      ⟨.stepFailed (.str "boom") 2 [(1, resOk5), (2, resBoom)] [("new_id", Value.int 5)],
       [("sp_a", [("A", Value.int 1)]), ("sp_b", [("A", Value.int 1), ("B", Value.int 2)])],
       ⟨[(1, resOk5), (2, resBoom)], [("new_id", Value.int 5)], [("A", Value.int 1)]⟩⟩ :=
  chain_aborts_on_failed_step oracleAB "sp_a" "sp_b" "sp_c"
    [("A", .int 1)] [("B", .int 2)] [] [] [] []
    (some [("p", "new_id")]) Option.none Option.none
    resOk5 resBoom (.str "fine") (.str "boom") rfl rfl rfl rfl

/-- Counterexample to claim C6 as stated: an exception raised by the very
first SP invocation is caught at the chain boundary and reported as the
exception dict, but that dict carries no failed_step entry (the exnFailed
constructor, unlike stepFailed, has no step field), so the outcome does not
include the exact step at which the failure occurred. -/
theorem chain_exception_no_failed_step_counterexample :
    (executeChain oracleRaise [cfgA]).outcome = .exnFailed "boom" [] [] ∧
    ((executeChain oracleRaise [cfgA]).outcome).failedStepOf = Option.none :=
  ⟨rfl, rfl⟩

/-- Claim C6 amended: an unexpected exception out of an SP invocation is
caught at the chain boundary and returned as a structured failure carrying
the exception message as the error, together with the partial results and
chain data accumulated so far, unchanged; unlike a step failure, this
return carries no failed_step entry. -/
theorem chain_exception_returns_partial_state (oracle : Oracle) (cfg : StepConfig)
    (rest : List StepConfig) (idx : Nat) (st : ExecState) (tr : List (String × Params))
    (e : String)
    (ho : oracle cfg.spName
        (buildParametersWithInheritance st cfg (cfg.step.getD ((idx : Int) + 1))) = .error e) :
    executeChainFrom oracle (cfg :: rest) idx st tr =
      ⟨.exnFailed e st.executionResults st.chainData,
       tr ++ [(cfg.spName,
         buildParametersWithInheritance st cfg (cfg.step.getD ((idx : Int) + 1)))],
       st⟩ ∧
    (executeChainFrom oracle (cfg :: rest) idx st tr).outcome.failedStepOf = Option.none := by
  have h := executeChainFrom_cons_error oracle cfg rest idx st tr e ho
  exact ⟨h, by rw [h]; rfl⟩

/-- Witness for the amended C6: an exception at the second step of a run in
progress, with non-empty partial results and chain data preserved in the
return. -/
theorem chain_exception_returns_partial_state_witness :
    oracleRaise "sp_b"
        (buildParametersWithInheritance
          ⟨[(1, resOk5)], [("k", Value.int 9)], [("A", Value.int 1)]⟩ cfgB
          (cfgB.step.getD ((1 : Int) + 1))) = .error "boom" ∧
    executeChainFrom oracleRaise [cfgB] 1
        ⟨[(1, resOk5)], [("k", Value.int 9)], [("A", Value.int 1)]⟩
        [("sp_a", [("A", Value.int 1)])] =
      ⟨.exnFailed "boom" [(1, resOk5)] [("k", Value.int 9)],
       [("sp_a", [("A", Value.int 1)]),
        ("sp_b", buildParametersWithInheritance
          ⟨[(1, resOk5)], [("k", Value.int 9)], [("A", Value.int 1)]⟩ cfgB
          (cfgB.step.getD ((1 : Int) + 1)))],
       ⟨[(1, resOk5)], [("k", Value.int 9)], [("A", Value.int 1)]⟩⟩ :=
  ⟨rfl,
   (chain_exception_returns_partial_state oracleRaise cfgB [] 1
     ⟨[(1, resOk5)], [("k", Value.int 9)], [("A", Value.int 1)]⟩
     [("sp_a", [("A", Value.int 1)])] "boom" rfl).1⟩

/-- Claim C7: within one chain execution, ChainData grows monotonically:
every key present in the pool when the loop is entered is still present in
the chain_data entry of the returned outcome, on the success path and on
every failure path (step failure and exception) alike — nothing is ever
rolled back. -/
theorem chainData_monotone (oracle : Oracle) (steps : List StepConfig) (idx : Nat)
    (st : ExecState) (tr : List (String × Params)) (k : String)
    (hk : k ∈ dictKeys st.chainData) :
    k ∈ dictKeys (executeChainFrom oracle steps idx st tr).outcome.chainDataOf := by
  induction steps generalizing idx st tr with
  | nil => simpa [executeChainFrom_nil, ChainOutcome.chainDataOf] using hk
  | cons cfg rest ih =>
    cases ho : oracle cfg.spName
        (buildParametersWithInheritance st cfg (cfg.step.getD ((idx : Int) + 1))) with
    | error e =>
      rw [executeChainFrom_cons_error oracle cfg rest idx st tr e ho]
      simpa [ChainOutcome.chainDataOf] using hk
    | ok r =>
      cases hs : checkStepStatus r with
      | error e =>
        rw [executeChainFrom_cons_checkError oracle cfg rest idx st tr r e ho hs]
        simpa [ChainOutcome.chainDataOf] using hk
      | ok bm =>
        obtain ⟨b, msg⟩ := bm
        cases b with
        | false =>
          rw [executeChainFrom_cons_failed oracle cfg rest idx st tr r msg ho hs]
          simpa [ChainOutcome.chainDataOf] using hk
        | true =>
          rw [executeChainFrom_cons_success oracle cfg rest idx st tr r msg ho hs]
          apply ih
          rw [postSuccessState_chainData]
          rcases houtm : cfg.outputMapping with _ | m
          · exact hk
          · exact mem_dictKeys_extractOutputs r m st.chainData k hk

/-- Witness for C7: a pre-existing chain_data key survives a run that adds
another key and then fails at its second step. -/
theorem chainData_monotone_witness :
    "old" ∈ dictKeys
      (⟨[], [("old", Value.int 7)], []⟩ : ExecState).chainData ∧
    "old" ∈ dictKeys
      (executeChainFrom oracleAB [cfgA, cfgB] 0
        ⟨[], [("old", Value.int 7)], []⟩ []).outcome.chainDataOf :=
  ⟨by simp [dictKeys],
   chainData_monotone oracleAB [cfgA, cfgB] 0 ⟨[], [("old", Value.int 7)], []⟩ [] "old"
     (by simp [dictKeys])⟩

/-- Claim C10: base_parameters is assigned only by a step whose step number
equals 1; over any chain whose step configs all carry explicit step numbers
different from 1, the executor ends with base_parameters exactly as it
started — on a fresh executor it remains the empty mapping, so every
non-first step inherits from an empty base. -/
theorem baseParameters_preserved_without_step_one (oracle : Oracle)
    (steps : List StepConfig) (idx : Nat) (st : ExecState) (tr : List (String × Params))
    (h : ∀ cfg ∈ steps, ∃ n, cfg.step = some n ∧ n ≠ 1) :
    (executeChainFrom oracle steps idx st tr).state.baseParameters = st.baseParameters := by
  induction steps generalizing idx st tr with
  | nil => rfl
  | cons cfg rest ih =>
    obtain ⟨n, hn, hn1⟩ := h cfg (List.mem_cons_self cfg rest)
    cases ho : oracle cfg.spName
        (buildParametersWithInheritance st cfg (cfg.step.getD ((idx : Int) + 1))) with
    | error e =>
      rw [executeChainFrom_cons_error oracle cfg rest idx st tr e ho]
    | ok r =>
      cases hs : checkStepStatus r with
      | error e =>
        rw [executeChainFrom_cons_checkError oracle cfg rest idx st tr r e ho hs]
      | ok bm =>
        obtain ⟨b, msg⟩ := bm
        cases b with
        | false =>
          rw [executeChainFrom_cons_failed oracle cfg rest idx st tr r msg ho hs]
        | true =>
          rw [executeChainFrom_cons_success oracle cfg rest idx st tr r msg ho hs]
          rw [ih _ _ _ (fun c hc => h c (List.mem_cons_of_mem cfg hc))]
          apply postSuccessState_baseParameters_of_ne_one
          rw [hn]
          simpa using hn1

/-- Witness for C10: a fresh executor running a chain numbered 2 and 3 ends
with an empty base_parameters. -/
theorem baseParameters_preserved_without_step_one_witness :
    (executeChain oracleOk [cfgN2, cfgN3]).state.baseParameters = [] :=
  baseParameters_preserved_without_step_one oracleOk [cfgN2, cfgN3] 0 initState []
    (by
      intro cfg hc
      simp only [List.mem_cons, List.not_mem_nil, or_false] at hc
      rcases hc with rfl | rfl
      · exact ⟨2, rfl, by decide⟩
      · exact ⟨3, rfl, by decide⟩)

/-- Claim C4: for every step whose step number differs from 1, the
parameter set built before input mapping equals (a deep copy of) the base
parameters updated with the step-specific overrides; observed through
lookup, an override wins on every key collision and the base supplies every
other key.  The step-override dict is a Python dict, so its keys are
assumed unique. -/
theorem non_first_step_inherits_from_base (base : Params) (cfg : StepConfig) (n : Int)
    (hn : n ≠ 1) (hnd : (dictKeys cfg.parameters).Nodup) :
    inheritedParams base cfg n = dictUpdate base cfg.parameters ∧
    ∀ k, dictGet (inheritedParams base cfg n) k =
      (dictGet cfg.parameters k).orElse (fun _ => dictGet base k) := by
  have h1 : inheritedParams base cfg n = dictUpdate base cfg.parameters := by
    unfold inheritedParams
    rw [if_neg hn]
  refine ⟨h1, fun k => ?_⟩
  rw [h1]
  exact dictGet_dictUpdate cfg.parameters base hnd k

/-- Witness for C4 at step number 2: the override B wins, the inherited A
falls through to the base. -/
theorem non_first_step_inherits_from_base_witness :
    (2 : Int) ≠ 1 ∧
    inheritedParams baseW cfgW 2 = dictUpdate baseW cfgW.parameters ∧
    dictGet (inheritedParams baseW cfgW 2) "B" =
      (dictGet cfgW.parameters "B").orElse (fun _ => dictGet baseW "B") ∧
    dictGet (inheritedParams baseW cfgW 2) "A" =
      (dictGet cfgW.parameters "A").orElse (fun _ => dictGet baseW "A") :=
  ⟨by decide,
   (non_first_step_inherits_from_base baseW cfgW 2 (by decide) (by decide)).1,
   (non_first_step_inherits_from_base baseW cfgW 2 (by decide) (by decide)).2 "B",
   (non_first_step_inherits_from_base baseW cfgW 2 (by decide) (by decide)).2 "A"⟩

end AutomationSP
